import Mathlib

/-!
Verification of the statistical inference core of `pseudoexperiments.py`:
the Poisson-mean model, the negative-log-likelihood objective (full and
restricted forms), the pseudoexperiment generator, and the profile fit
relations. Python floats are modelled as real numbers; Python exceptions
are modelled with `Except PyError`.
-/

noncomputable section
open Classical

/-- The Python exceptions that the modelled code can raise:
`ZeroDivisionError` (float division by zero), `ValueError`
(`math.log` domain error), `TypeError` (wrong splat arity / `None`
arithmetic). -/
inductive PyError : Type
  | zeroDivisionError
  | valueError
  | typeError
  deriving DecidableEq

/-- Prior constant: central value of parameter a. -/
def A : ℝ := 10.26

/-- Prior constant: standard deviation of parameter a. -/
def dA : ℝ := 0.3

/-- Prior constant: central value of parameter b. -/
def B : ℝ := 5.16

/-- Prior constant: standard deviation of parameter b. -/
def dB : ℝ := 0.1

/-- Prior constant: central value of parameter c. -/
def C : ℝ := 3.31

/-- Prior constant: standard deviation of parameter c. -/
def dC : ℝ := 0.6

/-- Prior constant: central value of parameter d. -/
def D : ℝ := 0.76

/-- Prior constant: standard deviation of parameter d. -/
def dD : ℝ := 0.04

/-- The number of bins in an energy spectrum. -/
def N_b : ℕ := 20

/-- The experiment's observed energy spectrum. -/
def OBS : List ℕ := [7, 4, 4, 3, 4, 6, 5, 3, 6, 5, 4, 1, 3, 0, 1, 1, 2, 0, 1, 0]

/-- The real value computed by `poisson_mean_model` when the divisors are
nonzero: `a*exp(-k/b) + d + (c/delta)*exp(-0.5*((k-mass)/delta)**2)`. -/
def poisson_mean_value (a b c d mass delta : ℝ) (k : ℕ) : ℝ :=
  a * Real.exp (-(k : ℝ) / b) + d +
    c / delta * Real.exp (-(0.5 : ℝ) * (((k : ℝ) - mass) / delta) ^ 2)

/-- Model of `poisson_mean_model(a, b, c, d, mass, delta, k)`: the Poisson mean for
bin `k`. Python raises `ZeroDivisionError` at `-k / b` when `b == 0` and at
`c / delta` when `delta == 0`; otherwise it returns
`a*math.exp(-k/b) + d + (c/delta)*math.exp(-0.5*((k-mass)/delta)**2)`. -/
def poisson_mean_model (a b c d mass delta : ℝ) (k : ℕ) : Except PyError ℝ :=
  if b = 0 ∨ delta = 0 then Except.error PyError.zeroDivisionError
  else Except.ok (poisson_mean_value a b c d mass delta k)

/-- The value of one bin's log-likelihood term when `mu > 0`:
`mu - n*log(mu) + log(n!)`. -/
def log_term_value (mu : ℝ) (n : ℕ) : ℝ :=
  mu - (n : ℝ) * Real.log mu + Real.log (Nat.factorial n)

/-- One bin's contribution `mu - d*math.log(mu) + math.log(factorial(d))`
from the comprehension in `LogLike.restricted` / `negative_log_likelihood`.
`math.log(mu)` raises `ValueError` when `mu <= 0`; the factorial of the
non-negative integer count always succeeds. -/
def log_term (mu : ℝ) (n : ℕ) : Except PyError ℝ :=
  if mu ≤ 0 then Except.error PyError.valueError
  else Except.ok (log_term_value mu n)

/-- A Python list comprehension `[f x for x in l]` over fallible `f`:
elements are evaluated left to right and the first exception propagates. -/
def mapE {α β : Type} (f : α → Except PyError β) : List α → Except PyError (List β)
  | [] => Except.ok []
  | x :: xs => do
    let y ← f x
    let ys ← mapE f xs
    pure (y :: ys)

/-- Structure `LogLike`: encapsulates the data (bin counts) and the optional fixed
`mass` and `delta` (both default to `None` in the constructor). -/
structure LogLike : Type where
  data : List ℕ
  mass : Option ℝ
  delta : Option ℝ

/-- Model of `LogLike.negative_log_likelihood(a, b, c, d, mass, delta)`: computes all
bin Poisson means for `k in range(1, N_b + 1)`, then the per-bin terms
`mu - d*log(mu) + log(factorial(d))` over `zip(bin_poisson_means, data)`
(the comprehension variable `d` is the bin count), and sums them. -/
def LogLike.negative_log_likelihood (ll : LogLike) (a b c d mass delta : ℝ) :
    Except PyError ℝ := do
  let bin_poisson_means ← mapE (poisson_mean_model a b c d mass delta) (List.range' 1 N_b)
  let bin_log_likelihoods ← mapE (fun p => log_term p.1 p.2) (bin_poisson_means.zip ll.data)
  pure bin_log_likelihoods.sum

/-- Model of `LogLike.restricted(a, b, c, d)`: the same computation with the
encapsulated `self.mass` and `self.delta`. When either is `None` the
arithmetic inside `poisson_mean_model` raises a `TypeError`. -/
def LogLike.restricted (ll : LogLike) (a b c d : ℝ) : Except PyError ℝ :=
  match ll.mass, ll.delta with
  | some mass, some delta => do
      let bin_poisson_means ← mapE (poisson_mean_model a b c d mass delta) (List.range' 1 N_b)
      let bin_log_likelihoods ← mapE (fun p => log_term p.1 p.2) (bin_poisson_means.zip ll.data)
      pure bin_log_likelihoods.sum
  | _, _ => Except.error PyError.typeError

/-- Model of `LogLike.__call__(x)`: splats the array `x` into
`negative_log_likelihood`; a wrong number of elements raises `TypeError`. -/
def LogLike.call (ll : LogLike) (x : List ℝ) : Except PyError ℝ :=
  match x with
  | [a, b, c, d, mass, delta] => ll.negative_log_likelihood a b c d mass delta
  | _ => Except.error PyError.typeError

/-- Model of `LogLike.restricted_np(x)`: splats the array `x` into `restricted`;
a wrong number of elements raises `TypeError`. -/
def LogLike.restricted_np (ll : LogLike) (x : List ℝ) : Except PyError ℝ :=
  match x with
  | [a, b, c, d] => ll.restricted a b c d
  | _ => Except.error PyError.typeError

/-- A Python loop drawing one Poisson variate per mean while threading the
sampler's state; the first exception from the sampler propagates. -/
def mapES {τ : Type} (f : ℝ → τ → Except PyError (ℕ × τ)) :
    List ℝ → τ → Except PyError (List ℕ × τ)
  | [], t => Except.ok ([], t)
  | x :: xs, t => do
    let r ← f x t
    let rest ← mapES f xs r.2
    pure (r.1 :: rest.1, rest.2)

/-- Model of `generate_pseudoexperiment(m, Delta)`. The two random collaborators are
external (`random.normalvariate` on the seeded `random` stream,
`np_rng.poisson` on the seeded numpy stream); they are modelled as explicit
state-threading functions `gauss` and `pois`. The function draws
`current_A..current_D` in order from the Gaussian stream, computes all bin
means with `poisson_mean_model`, then draws one Poisson count per mean in
order from the numpy stream, returning the counts and both final stream
states. -/
def generate_pseudoexperiment {σ τ : Type} (gauss : ℝ → ℝ → σ → ℝ × σ)
    (pois : ℝ → τ → Except PyError (ℕ × τ)) (m Delta : ℝ) (s : σ) (t : τ) :
    Except PyError (List ℕ × σ × τ) :=
  let r1 := gauss A dA s
  let r2 := gauss B dB r1.2
  let r3 := gauss C dC r2.2
  let r4 := gauss D dD r3.2
  do
    let current_means ← mapE (poisson_mean_model r1.1 r2.1 r3.1 r4.1 m Delta)
      (List.range' 1 N_b)
    let drawn ← mapES pois current_means t
    pure (drawn.1, r4.2, drawn.2)

/-- Modelled from the spec (§4.2), for comparison with the source's
`generate_pseudoexperiment`: "draw current_a, current_b, current_c,
current_d independently from Normal(center, width) using the fixed
PriorConstants; for k = 1..N_b compute mu_k = Model.mean(current_a, ...,
mass, delta, k); draw count_k ~ Poisson(mu_k) independently per bin.
Returns the sequence [count_1 .. count_N_b]." -/
def generate_spec {σ τ : Type} (gauss : ℝ → ℝ → σ → ℝ × σ)
    (pois : ℝ → τ → Except PyError (ℕ × τ)) (mass delta : ℝ) (s : σ) (t : τ) :
    Except PyError (List ℕ × σ × τ) :=
  let (current_a, s1) := gauss A dA s
  let (current_b, s2) := gauss B dB s1
  let (current_c, s3) := gauss C dC s2
  let (current_d, s4) := gauss D dD s3
  do
    let mus ← mapE (fun k => poisson_mean_model current_a current_b current_c current_d
      mass delta k) (List.range' 1 N_b)
    let counts ← mapES pois mus t
    pure (counts.1, s4, counts.2)

/-- Modelled from the spec (§4.4, §6): the external scipy minimizer used by
`fit_given_data` and `fit_given_data_at_location` returns a fit result whose
value is the minimized objective value — it is attained at the minimizing
point and bounds the objective from below over the whole search space. -/
def IsGlobalMin {α : Type} (f : α → Except PyError ℝ) (v : ℝ) : Prop :=
  (∃ x, f x = Except.ok v) ∧ ∀ x w, f x = Except.ok w → v ≤ w

/-! ### Helper lemmas -/

theorem pm_ok {b delta : ℝ} (a c d mass : ℝ) (k : ℕ) (hb : b ≠ 0) (hd : delta ≠ 0) :
    poisson_mean_model a b c d mass delta k =
      Except.ok (poisson_mean_value a b c d mass delta k) := by
  simp [poisson_mean_model, hb, hd]

theorem pm_err {b delta : ℝ} (a c d mass : ℝ) (k : ℕ) (h : b = 0 ∨ delta = 0) :
    poisson_mean_model a b c d mass delta k = Except.error PyError.zeroDivisionError := by
  unfold poisson_mean_model
  rw [if_pos h]

theorem log_term_ok {mu : ℝ} (n : ℕ) (h : 0 < mu) :
    log_term mu n = Except.ok (log_term_value mu n) := by
  unfold log_term
  rw [if_neg (not_le.mpr h)]

theorem log_term_err {mu : ℝ} (n : ℕ) (h : mu ≤ 0) :
    log_term mu n = Except.error PyError.valueError := by
  unfold log_term
  rw [if_pos h]

theorem except_bind_ok {α β : Type} (a : α) (f : α → Except PyError β) :
    (Except.ok a >>= f) = f a := rfl

theorem except_bind_err {α β : Type} (e : PyError) (f : α → Except PyError β) :
    ((Except.error e : Except PyError α) >>= f) = Except.error e := rfl

theorem except_map_err {α β : Type} (g : α → β) (e : PyError) :
    (g <$> (Except.error e : Except PyError α)) = Except.error e := rfl

theorem mapE_ok {α β : Type} {f : α → Except PyError β} {g : α → β} :
    ∀ l : List α, (∀ x ∈ l, f x = Except.ok (g x)) → mapE f l = Except.ok (l.map g)
  | [], _ => rfl
  | x :: xs, h => by
    have hx := h x (List.mem_cons_self x xs)
    have hxs := mapE_ok xs fun y hy => h y (List.mem_cons_of_mem x hy)
    simp [mapE, hx, hxs, except_bind_ok]

theorem mapE_error_of_mem {α β : Type} {f : α → Except PyError β} {x : α} {e : PyError} :
    ∀ l : List α, x ∈ l → f x = Except.error e → ∃ e2, mapE f l = Except.error e2
  | [], h, _ => absurd h (List.not_mem_nil x)
  | y :: ys, h, hx => by
    rcases List.mem_cons.mp h with h1 | h2
    · subst h1
      exact ⟨e, by simp [mapE, hx, except_bind_err]⟩
    · cases hy : f y with
      | error e3 => exact ⟨e3, by simp [mapE, hy, except_bind_err]⟩
      | ok v =>
        obtain ⟨e2, he2⟩ := mapE_error_of_mem ys h2 hx
        exact ⟨e2, by simp [mapE, hy, he2, except_bind_ok, except_bind_err]⟩

theorem restricted_eq_nll (data : List ℕ) (m dl a b c d : ℝ) :
    (LogLike.mk data (some m) (some dl)).restricted a b c d =
      (LogLike.mk data none none).negative_log_likelihood a b c d m dl := rfl

theorem zip_range'_sum (g : ℕ × ℕ → ℝ) :
    ∀ (data : List ℕ) (s : ℕ),
      (((List.range' s data.length).zip data).map g).sum =
        ∑ i ∈ Finset.range data.length, g (s + i, data.getD i 0)
  | [], s => by simp
  | n :: ds, s => by
    have ih := zip_range'_sum g ds (s + 1)
    have hlen : (n :: ds).length = ds.length + 1 := rfl
    rw [hlen, List.range'_succ, Finset.sum_range_succ']
    simp only [List.zip_cons_cons, List.map_cons, List.sum_cons, List.getD_cons_succ,
      List.getD_cons_zero, Nat.add_zero]
    rw [ih]
    have hsum : ∑ i ∈ Finset.range ds.length, g (s + (i + 1), ds.getD i 0) =
        ∑ i ∈ Finset.range ds.length, g (s + 1 + i, ds.getD i 0) :=
      Finset.sum_congr rfl fun i _ => by rw [show s + (i + 1) = s + 1 + i by omega]
    rw [hsum]
    ring

theorem except_pure {α : Type} (x : α) : (pure x : Except PyError α) = Except.ok x := rfl

theorem nll_eval (data : List ℕ) (a b c d mass delta : ℝ) (hlen : data.length = N_b)
    (hb : b ≠ 0) (hd : delta ≠ 0)
    (hpos : ∀ k, 1 ≤ k → k ≤ N_b → 0 < poisson_mean_value a b c d mass delta k) :
    (LogLike.mk data none none).negative_log_likelihood a b c d mass delta =
      Except.ok (∑ k ∈ Finset.Icc 1 N_b,
        (poisson_mean_value a b c d mass delta k -
          (data.getD (k - 1) 0 : ℝ) * Real.log (poisson_mean_value a b c d mass delta k) +
          Real.log (Nat.factorial (data.getD (k - 1) 0)))) := by
  have hmeans : mapE (poisson_mean_model a b c d mass delta) (List.range' 1 N_b) =
      Except.ok ((List.range' 1 N_b).map (poisson_mean_value a b c d mass delta)) :=
    mapE_ok _ fun k _ => pm_ok a c d mass k hb hd
  have hterms : mapE (fun p : ℝ × ℕ => log_term p.1 p.2)
      (((List.range' 1 N_b).map (poisson_mean_value a b c d mass delta)).zip data) =
      Except.ok ((((List.range' 1 N_b).zip data).map
          (Prod.map (poisson_mean_value a b c d mass delta) id)).map
        fun p : ℝ × ℕ => log_term_value p.1 p.2) := by
    rw [List.zip_map_left]
    refine mapE_ok _ fun p hp => ?_
    obtain ⟨q, hq, rfl⟩ := List.mem_map.mp hp
    obtain ⟨h1, h2⟩ := List.mem_range'_1.mp (List.of_mem_zip hq).1
    exact log_term_ok _ (hpos q.1 h1 (by omega))
  simp only [LogLike.negative_log_likelihood]
  rw [hmeans]
  simp only [except_bind_ok]
  rw [hterms]
  simp only [except_bind_ok, except_pure]
  rw [List.map_map]
  rw [show ((fun p : ℝ × ℕ => log_term_value p.1 p.2) ∘
      Prod.map (poisson_mean_value a b c d mass delta) id) =
      fun q : ℕ × ℕ =>
        log_term_value (poisson_mean_value a b c d mass delta q.1) q.2 from rfl]
  rw [show List.range' 1 N_b = List.range' 1 data.length by rw [hlen]]
  rw [zip_range'_sum (fun q : ℕ × ℕ =>
    log_term_value (poisson_mean_value a b c d mass delta q.1) q.2) data 1]
  rw [show Finset.Icc 1 N_b = Finset.Ico 1 (N_b + 1) from (Nat.Ico_succ_right 1 N_b).symm]
  rw [Finset.sum_Ico_eq_sum_range]
  rw [show N_b + 1 - 1 = data.length by omega]
  congr 1
  refine Finset.sum_congr rfl fun i _ => ?_
  rw [show 1 + i - 1 = i by omega]
  simp [log_term_value]

theorem nll_nil_value (a b c d mass delta : ℝ) (hb : b ≠ 0) (hd : delta ≠ 0) :
    (LogLike.mk [] none none).negative_log_likelihood a b c d mass delta = Except.ok 0 := by
  simp only [LogLike.negative_log_likelihood]
  rw [mapE_ok _ fun k _ => pm_ok a c d mass k hb hd]
  simp only [except_bind_ok, List.zip_nil_right]
  rfl

theorem nll_nil_ok {a b c d mass delta : ℝ} {w : ℝ}
    (h : (LogLike.mk [] none none).negative_log_likelihood a b c d mass delta =
      Except.ok w) : w = 0 := by
  simp only [LogLike.negative_log_likelihood] at h
  cases hm : mapE (poisson_mean_model a b c d mass delta) (List.range' 1 N_b) with
  | error e =>
    rw [hm] at h
    simp only [except_bind_err] at h
    exact absurd h (by simp)
  | ok mus =>
    rw [hm] at h
    simp only [except_bind_ok, List.zip_nil_right] at h
    rw [show mapE (fun p : ℝ × ℕ => log_term p.1 p.2) ([] : List (ℝ × ℕ)) =
      Except.ok [] from rfl] at h
    simp only [except_bind_ok, except_pure, List.sum_nil] at h
    exact (Except.ok.inj h).symm

theorem restricted_nil_value (m dl a b c d : ℝ) (hb : b ≠ 0) (hd : dl ≠ 0) :
    (LogLike.mk [] (some m) (some dl)).restricted a b c d = Except.ok 0 :=
  (restricted_eq_nll [] m dl a b c d).trans (nll_nil_value a b c d m dl hb hd)

theorem restricted_nil_ok {m dl a b c d w : ℝ}
    (h : (LogLike.mk [] (some m) (some dl)).restricted a b c d = Except.ok w) : w = 0 :=
  nll_nil_ok ((restricted_eq_nll [] m dl a b c d).symm.trans h)

theorem getD_pair_mem_zip {α β : Type} (x0 : α) (y0 : β) :
    ∀ (l1 : List α) (l2 : List β) (i : ℕ), i < l1.length → i < l2.length →
      (l1.getD i x0, l2.getD i y0) ∈ l1.zip l2
  | [], _, i, h1, _ => absurd h1 (by simp)
  | _ :: _, [], i, _, h2 => absurd h2 (by simp)
  | a :: l1, b :: l2, 0, _, _ => by simp
  | a :: l1, b :: l2, i + 1, h1, h2 => by
    simp only [List.getD_cons_succ, List.zip_cons_cons]
    exact List.mem_cons_of_mem _
      (getD_pair_mem_zip x0 y0 l1 l2 i (by simpa using h1) (by simpa using h2))

theorem mapES_error_of_mem {τ : Type} {f : ℝ → τ → Except PyError (ℕ × τ)} {x : ℝ}
    (hx : ∀ t2, ∃ e, f x t2 = Except.error e) :
    ∀ (l : List ℝ), x ∈ l → ∀ t2, ∃ e2, mapES f l t2 = Except.error e2
  | [], h, _ => absurd h (List.not_mem_nil x)
  | y :: ys, h, t2 => by
    rcases List.mem_cons.mp h with h1 | h2
    · subst h1
      obtain ⟨e, he⟩ := hx t2
      exact ⟨e, by simp [mapES, he, except_bind_err]⟩
    · cases hy : f y t2 with
      | error e3 => exact ⟨e3, by simp [mapES, hy, except_bind_err]⟩
      | ok r =>
        obtain ⟨e2, he2⟩ := mapES_error_of_mem hx ys h2 r.2
        exact ⟨e2, by simp [mapES, hy, he2, except_bind_ok, except_bind_err]⟩

/-! ### Claim theorems -/

/-- C1: for a dataset of N_b = 20 counts and parameters whose divisors are
nonzero and whose bin means are all positive, the full objective
`negative_log_likelihood` returns exactly the sum over bins k = 1..20 of
`mu_k - n_k*ln(mu_k) + ln(n_k!)`, where `mu_k` is the value returned by
`poisson_mean_model` at bin k and `n_k` is the count in bin k; the
restricted form computes the same sum with the encapsulated mass and
delta. -/
theorem C1_objective_is_poisson_sum (data : List ℕ) (a b c d mass delta : ℝ)
    (hlen : data.length = N_b) (hb : b ≠ 0) (hd : delta ≠ 0)
    (hpos : ∀ k, 1 ≤ k → k ≤ N_b → 0 < poisson_mean_value a b c d mass delta k) :
    (LogLike.mk data none none).negative_log_likelihood a b c d mass delta =
      Except.ok (∑ k ∈ Finset.Icc 1 N_b,
        (poisson_mean_value a b c d mass delta k -
          (data.getD (k - 1) 0 : ℝ) * Real.log (poisson_mean_value a b c d mass delta k) +
          Real.log (Nat.factorial (data.getD (k - 1) 0)))) ∧
    (LogLike.mk data (some mass) (some delta)).restricted a b c d =
      Except.ok (∑ k ∈ Finset.Icc 1 N_b,
        (poisson_mean_value a b c d mass delta k -
          (data.getD (k - 1) 0 : ℝ) * Real.log (poisson_mean_value a b c d mass delta k) +
          Real.log (Nat.factorial (data.getD (k - 1) 0)))) :=
  ⟨nll_eval data a b c d mass delta hlen hb hd hpos,
    (restricted_eq_nll data mass delta a b c d).trans
      (nll_eval data a b c d mass delta hlen hb hd hpos)⟩

/-- Witness for C1 at the observed spectrum and the parameter point
(10, 5, 3, 1, 8, 2), where every bin mean is positive. -/
theorem C1_witness :
    OBS.length = N_b ∧ (5 : ℝ) ≠ 0 ∧ (2 : ℝ) ≠ 0 ∧
    (∀ k, 1 ≤ k → k ≤ N_b → 0 < poisson_mean_value 10 5 3 1 8 2 k) ∧
    ((LogLike.mk OBS none none).negative_log_likelihood 10 5 3 1 8 2 =
      Except.ok (∑ k ∈ Finset.Icc 1 N_b,
        (poisson_mean_value 10 5 3 1 8 2 k -
          (OBS.getD (k - 1) 0 : ℝ) * Real.log (poisson_mean_value 10 5 3 1 8 2 k) +
          Real.log (Nat.factorial (OBS.getD (k - 1) 0)))) ∧
     (LogLike.mk OBS (some 8) (some 2)).restricted 10 5 3 1 =
      Except.ok (∑ k ∈ Finset.Icc 1 N_b,
        (poisson_mean_value 10 5 3 1 8 2 k -
          (OBS.getD (k - 1) 0 : ℝ) * Real.log (poisson_mean_value 10 5 3 1 8 2 k) +
          Real.log (Nat.factorial (OBS.getD (k - 1) 0))))) := by
  have hlen : OBS.length = N_b := by decide
  have hpos : ∀ k, 1 ≤ k → k ≤ N_b → 0 < poisson_mean_value 10 5 3 1 8 2 k := by
    intro k _ _
    unfold poisson_mean_value
    positivity
  exact ⟨hlen, by norm_num, by norm_num, hpos,
    C1_objective_is_poisson_sum OBS 10 5 3 1 8 2 hlen (by norm_num) (by norm_num) hpos⟩

/-- C2: with b and delta nonzero, `poisson_mean_model` returns exactly
`a*exp(-k/b) + d + (c/delta)*exp(-0.5*((k-mass)/delta)^2)`. -/
theorem C2_mean_formula (a b c d mass delta : ℝ) (k : ℕ) (hb : b ≠ 0) (hd : delta ≠ 0) :
    poisson_mean_model a b c d mass delta k =
      Except.ok (a * Real.exp (-(k : ℝ) / b) + d +
        c / delta * Real.exp (-(0.5 : ℝ) * (((k : ℝ) - mass) / delta) ^ 2)) :=
  pm_ok a c d mass k hb hd

/-- Witness for C2 at (a,b,c,d,mass,delta,k) = (1,5,3,4,8,2,7). -/
theorem C2_witness :
    (5 : ℝ) ≠ 0 ∧ (2 : ℝ) ≠ 0 ∧
    poisson_mean_model 1 5 3 4 8 2 7 =
      Except.ok (1 * Real.exp (-(7 : ℕ) / (5 : ℝ)) + 4 +
        3 / 2 * Real.exp (-(0.5 : ℝ) * ((((7 : ℕ) : ℝ) - 8) / 2) ^ 2)) :=
  ⟨by norm_num, by norm_num, C2_mean_formula 1 5 3 4 8 2 7 (by norm_num) (by norm_num)⟩

/-- C3: the restricted objective of a LogLike constructed with fixed
(mass, delta) equals the full objective of a LogLike on the same data
evaluated at (a, b, c, d, mass, delta). -/
theorem C3_restricted_pins_full (data : List ℕ) (m dl a b c d : ℝ) :
    (LogLike.mk data (some m) (some dl)).restricted a b c d =
      (LogLike.mk data none none).negative_log_likelihood a b c d m dl :=
  restricted_eq_nll data m dl a b c d

/-- C4: with the external minimizer modelled as returning the global
minimum of the objective it is handed (spec §4.4/§6), the profile test
statistic — the restricted 4-parameter minimum found at (mass, delta) minus
the full 6-parameter minimum on the same dataset — is non-negative. -/
theorem C4_profile_lambda_nonneg (data : List ℕ) (m dl v4 v6 : ℝ)
    (h4 : IsGlobalMin (fun p : ℝ × ℝ × ℝ × ℝ =>
      (LogLike.mk data (some m) (some dl)).restricted p.1 p.2.1 p.2.2.1 p.2.2.2) v4)
    (h6 : IsGlobalMin (fun q : ℝ × ℝ × ℝ × ℝ × ℝ × ℝ =>
      (LogLike.mk data none none).negative_log_likelihood
        q.1 q.2.1 q.2.2.1 q.2.2.2.1 q.2.2.2.2.1 q.2.2.2.2.2) v6) :
    0 ≤ v4 - v6 := by
  obtain ⟨⟨p, hp⟩, _⟩ := h4
  have hfull : (LogLike.mk data none none).negative_log_likelihood
      p.1 p.2.1 p.2.2.1 p.2.2.2 m dl = Except.ok v4 :=
    (restricted_eq_nll data m dl p.1 p.2.1 p.2.2.1 p.2.2.2).symm.trans hp
  have hle := h6.2 (p.1, p.2.1, p.2.2.1, p.2.2.2, m, dl) v4 hfull
  linarith

/-- Witness for C4: on the empty dataset both objectives are constantly
`Except.ok 0` on their valid domains, so 0 is a global minimum of each. -/
theorem C4_witness :
    IsGlobalMin (fun p : ℝ × ℝ × ℝ × ℝ =>
      (LogLike.mk [] (some 0) (some 1)).restricted p.1 p.2.1 p.2.2.1 p.2.2.2) 0 ∧
    IsGlobalMin (fun q : ℝ × ℝ × ℝ × ℝ × ℝ × ℝ =>
      (LogLike.mk [] none none).negative_log_likelihood
        q.1 q.2.1 q.2.2.1 q.2.2.2.1 q.2.2.2.2.1 q.2.2.2.2.2) 0 ∧
    (0 : ℝ) ≤ 0 - 0 := by
  have h4 : IsGlobalMin (fun p : ℝ × ℝ × ℝ × ℝ =>
      (LogLike.mk [] (some 0) (some 1)).restricted p.1 p.2.1 p.2.2.1 p.2.2.2) 0 :=
    ⟨⟨(0, 1, 0, 0), restricted_nil_value 0 1 0 1 0 0 one_ne_zero one_ne_zero⟩,
      fun x w hw => le_of_eq (restricted_nil_ok hw).symm⟩
  have h6 : IsGlobalMin (fun q : ℝ × ℝ × ℝ × ℝ × ℝ × ℝ =>
      (LogLike.mk [] none none).negative_log_likelihood
        q.1 q.2.1 q.2.2.1 q.2.2.2.1 q.2.2.2.2.1 q.2.2.2.2.2) 0 :=
    ⟨⟨(0, 1, 0, 0, 0, 1), nll_nil_value 0 1 0 0 0 1 one_ne_zero one_ne_zero⟩,
      fun x w hw => le_of_eq (nll_nil_ok hw).symm⟩
  exact ⟨h4, h6, C4_profile_lambda_nonneg [] 0 1 0 0 h4 h6⟩

/-- C5: `generate_pseudoexperiment` follows exactly the spec's algorithm
(`generate_spec`): draw the four nuisance parameters in order from the
Gaussian stream with the fixed prior constants, compute all N_b bin means
with `poisson_mean_model`, then draw one Poisson count per bin in order. -/
theorem C5_generator_follows_spec {σ τ : Type} (gauss : ℝ → ℝ → σ → ℝ × σ)
    (pois : ℝ → τ → Except PyError (ℕ × τ)) (m Delta : ℝ) (s : σ) (t : τ) :
    generate_pseudoexperiment gauss pois m Delta s t =
      generate_spec gauss pois m Delta s t := rfl

/-- Counterexample for C6: at the probe point (10, 5, 3, 1, 8, 0) — delta
driven to 0 — the objective handed to the minimizer does not return a
value; it raises. -/
theorem C6_counterexample :
    ¬ ∃ v : ℝ, (LogLike.mk OBS none none).call [10, 5, 3, 1, 8, 0] = Except.ok v := by
  rintro ⟨v, hv⟩
  have h1 : poisson_mean_model 10 5 3 1 8 0 1 = Except.error PyError.zeroDivisionError :=
    pm_err 10 3 1 8 1 (Or.inr rfl)
  obtain ⟨e2, he2⟩ := mapE_error_of_mem (List.range' 1 N_b) (by decide) h1
  simp only [LogLike.call, LogLike.negative_log_likelihood] at hv
  rw [he2] at hv
  simp only [except_bind_err] at hv
  exact Except.noConfusion hv

/-- C6 amended: on every probe point outside the valid domain (b = 0,
delta = 0, or some bin mean within the data's bins non-positive) the
objective handed to the minimizer propagates a Python exception instead of
returning a value. -/
theorem C6_amended_objective_raises (data : List ℕ) (a b c d mass delta : ℝ)
    (h : b = 0 ∨ delta = 0 ∨ ∃ k, 1 ≤ k ∧ k ≤ N_b ∧ k ≤ data.length ∧
      poisson_mean_value a b c d mass delta k ≤ 0) :
    ∃ e, (LogLike.mk data none none).call [a, b, c, d, mass, delta] = Except.error e := by
  by_cases hb : b = 0
  · obtain ⟨e2, he2⟩ := mapE_error_of_mem (List.range' 1 N_b) (show (1 : ℕ) ∈ _ by decide)
      (pm_err a c d mass 1 (Or.inl hb))
    refine ⟨e2, ?_⟩
    simp only [LogLike.call, LogLike.negative_log_likelihood]
    rw [he2]
    simp only [except_bind_err]
  by_cases hd : delta = 0
  · obtain ⟨e2, he2⟩ := mapE_error_of_mem (List.range' 1 N_b) (show (1 : ℕ) ∈ _ by decide)
      (pm_err a c d mass 1 (Or.inr hd))
    refine ⟨e2, ?_⟩
    simp only [LogLike.call, LogLike.negative_log_likelihood]
    rw [he2]
    simp only [except_bind_err]
  rcases h with h | h | ⟨k, hk1, hk2, hk3, hkneg⟩
  · exact absurd h hb
  · exact absurd h hd
  have hmeans : mapE (poisson_mean_model a b c d mass delta) (List.range' 1 N_b) =
      Except.ok ((List.range' 1 N_b).map (poisson_mean_value a b c d mass delta)) :=
    mapE_ok _ fun j _ => pm_ok a c d mass j hb hd
  have hlen1 : k - 1 < ((List.range' 1 N_b).map
      (poisson_mean_value a b c d mass delta)).length := by
    rw [List.length_map, List.length_range']
    omega
  have hlen2 : k - 1 < data.length := by omega
  have hmem := getD_pair_mem_zip 0 0
    ((List.range' 1 N_b).map (poisson_mean_value a b c d mass delta)) data (k - 1)
    hlen1 hlen2
  have hval : ((List.range' 1 N_b).map
      (poisson_mean_value a b c d mass delta)).getD (k - 1) 0 =
      poisson_mean_value a b c d mass delta k := by
    rw [List.getD_eq_getElem _ _ hlen1, List.getElem_map, List.getElem_range']
    rw [show 1 + 1 * (k - 1) = k by omega]
  have hterm : log_term (((List.range' 1 N_b).map
      (poisson_mean_value a b c d mass delta)).getD (k - 1) 0) (data.getD (k - 1) 0) =
      Except.error PyError.valueError := by
    rw [hval]
    exact log_term_err _ hkneg
  obtain ⟨e2, he2⟩ := mapE_error_of_mem
    (f := fun p : ℝ × ℕ => log_term p.1 p.2) _ hmem hterm
  refine ⟨e2, ?_⟩
  simp only [LogLike.call, LogLike.negative_log_likelihood]
  rw [hmeans]
  simp only [except_bind_ok]
  rw [he2]
  simp only [except_bind_err]

/-- Witness for the amended C6 at the probe point (10, 0, 3, 1, 8, 2),
where b = 0. -/
theorem C6_amended_witness :
    ((0 : ℝ) = 0 ∨ (2 : ℝ) = 0 ∨ ∃ k, 1 ≤ k ∧ k ≤ N_b ∧ k ≤ OBS.length ∧
      poisson_mean_value 10 0 3 1 8 2 k ≤ 0) ∧
    ∃ e, (LogLike.mk OBS none none).call [10, 0, 3, 1, 8, 2] = Except.error e :=
  ⟨Or.inl rfl, C6_amended_objective_raises OBS 10 0 3 1 8 2 (Or.inl rfl)⟩

/-- Counterexample for C7: at (1, 1, 1, 1, 1, delta = 0, k = 1) the failure
is exactly the raw division-by-zero trap (`ZeroDivisionError`), not a
domain-violation error distinct from it. -/
theorem C7_counterexample :
    ¬ ∃ e, poisson_mean_model 1 1 1 1 1 0 1 = Except.error e ∧
      e ≠ PyError.zeroDivisionError := by
  rintro ⟨e, he, hne⟩
  rw [pm_err 1 1 1 1 1 (Or.inr rfl)] at he
  injection he with h2
  exact hne h2.symm

/-- C7 amended: evaluating `poisson_mean_model` with delta = 0 (or b = 0)
fails with the `ZeroDivisionError` raised by the division and never returns
a value. -/
theorem C7_amended_zero_divisor_raises (a b c d mass delta : ℝ) (k : ℕ)
    (h : b = 0 ∨ delta = 0) :
    poisson_mean_model a b c d mass delta k = Except.error PyError.zeroDivisionError ∧
    ∀ v : ℝ, poisson_mean_model a b c d mass delta k ≠ Except.ok v := by
  have he := pm_err a c d mass k h
  exact ⟨he, fun v hv => Except.noConfusion (he.symm.trans hv)⟩

/-- Witness for the amended C7 at (2, 1, 3, 4, 5, 0, 6). -/
theorem C7_witness :
    ((1 : ℝ) = 0 ∨ (0 : ℝ) = 0) ∧
    (poisson_mean_model 2 1 3 4 5 0 6 = Except.error PyError.zeroDivisionError ∧
      ∀ v : ℝ, poisson_mean_model 2 1 3 4 5 0 6 ≠ Except.ok v) :=
  ⟨Or.inr rfl, C7_amended_zero_divisor_raises 2 1 3 4 5 0 6 (Or.inr rfl)⟩

/-- Counterexample for C8: at a = 0, b = 1, c = 0, d = 0, mass = 0,
delta = 1 the means at bins 1 and 2 are both 0, so the mean is not strictly
decreasing in k even though c = 0 and b > 0. -/
theorem C8_counterexample :
    poisson_mean_model 0 1 0 0 0 1 1 = Except.ok 0 ∧
    poisson_mean_model 0 1 0 0 0 1 2 = Except.ok 0 ∧ ¬ (0 : ℝ) < 0 := by
  have h1 : poisson_mean_value 0 1 0 0 0 1 1 = 0 := by
    norm_num [poisson_mean_value]
  have h2 : poisson_mean_value 0 1 0 0 0 1 2 = 0 := by
    norm_num [poisson_mean_value]
  exact ⟨by rw [pm_ok 0 0 0 0 1 one_ne_zero one_ne_zero, h1],
    by rw [pm_ok 0 0 0 0 2 one_ne_zero one_ne_zero, h2], lt_irrefl 0⟩

/-- C8 amended: with c = 0, a > 0, b > 0 and delta ≠ 0, the value returned
by `poisson_mean_model` strictly decreases in the bin index k. -/
theorem C8_amended_mean_decreasing (a b d mass delta : ℝ) (k1 k2 : ℕ)
    (ha : 0 < a) (hb : 0 < b) (hd : delta ≠ 0) (hk : k1 < k2) :
    ∃ v1 v2 : ℝ, poisson_mean_model a b 0 d mass delta k1 = Except.ok v1 ∧
      poisson_mean_model a b 0 d mass delta k2 = Except.ok v2 ∧ v2 < v1 := by
  refine ⟨_, _, pm_ok a 0 d mass k1 (ne_of_gt hb) hd,
    pm_ok a 0 d mass k2 (ne_of_gt hb) hd, ?_⟩
  unfold poisson_mean_value
  have hexp : Real.exp (-(k2 : ℝ) / b) < Real.exp (-(k1 : ℝ) / b) := by
    apply Real.exp_lt_exp.mpr
    apply div_lt_div_of_pos_right ?_ hb
    have : (k1 : ℝ) < (k2 : ℝ) := by exact_mod_cast hk
    linarith
  have hmul : a * Real.exp (-(k2 : ℝ) / b) < a * Real.exp (-(k1 : ℝ) / b) :=
    mul_lt_mul_of_pos_left hexp ha
  simp only [zero_div, zero_mul]
  linarith

/-- Witness for the amended C8 at a = 1, b = 1, d = 0, mass = 0, delta = 1,
k1 = 1 < k2 = 2. -/
theorem C8_witness :
    (0 : ℝ) < 1 ∧ (0 : ℝ) < 1 ∧ (1 : ℝ) ≠ 0 ∧ (1 : ℕ) < 2 ∧
    ∃ v1 v2 : ℝ, poisson_mean_model 1 1 0 0 0 1 1 = Except.ok v1 ∧
      poisson_mean_model 1 1 0 0 0 1 2 = Except.ok v2 ∧ v2 < v1 :=
  ⟨one_pos, one_pos, one_ne_zero, one_lt_two,
    C8_amended_mean_decreasing 1 1 0 0 1 1 2 one_pos one_pos one_ne_zero one_lt_two⟩

/-- C9: the numpy-array wrappers coincide with the plain-argument forms:
for a 6-element array, `__call__` equals `negative_log_likelihood` on its
elements; for a 4-element array, `restricted_np` equals `restricted` on its
elements. -/
theorem C9_wrappers_coincide (ll : LogLike) (x6 x4 : List ℝ)
    (h6 : x6.length = 6) (h4 : x4.length = 4) :
    ll.call x6 = ll.negative_log_likelihood (x6.getD 0 0) (x6.getD 1 0) (x6.getD 2 0)
        (x6.getD 3 0) (x6.getD 4 0) (x6.getD 5 0) ∧
    ll.restricted_np x4 = ll.restricted (x4.getD 0 0) (x4.getD 1 0) (x4.getD 2 0)
        (x4.getD 3 0) := by
  constructor
  · rcases x6 with _ | ⟨a, x⟩
    · simp only [List.length_nil] at h6
      omega
    rcases x with _ | ⟨b, x⟩
    · simp only [List.length_cons, List.length_nil] at h6
      omega
    rcases x with _ | ⟨c, x⟩
    · simp only [List.length_cons, List.length_nil] at h6
      omega
    rcases x with _ | ⟨d, x⟩
    · simp only [List.length_cons, List.length_nil] at h6
      omega
    rcases x with _ | ⟨m, x⟩
    · simp only [List.length_cons, List.length_nil] at h6
      omega
    rcases x with _ | ⟨dl, x⟩
    · simp only [List.length_cons, List.length_nil] at h6
      omega
    rcases x with _ | ⟨z, x⟩
    · rfl
    · simp only [List.length_cons] at h6
      omega
  · rcases x4 with _ | ⟨a, x⟩
    · simp only [List.length_nil] at h4
      omega
    rcases x with _ | ⟨b, x⟩
    · simp only [List.length_cons, List.length_nil] at h4
      omega
    rcases x with _ | ⟨c, x⟩
    · simp only [List.length_cons, List.length_nil] at h4
      omega
    rcases x with _ | ⟨d, x⟩
    · simp only [List.length_cons, List.length_nil] at h4
      omega
    rcases x with _ | ⟨z, x⟩
    · rfl
    · simp only [List.length_cons] at h4
      omega

/-- Witness for C9 on the observed spectrum with the arrays
[1,2,3,4,5,6] and [7,8,9,10]. -/
theorem C9_witness :
    ([(1 : ℝ), 2, 3, 4, 5, 6].length = 6) ∧ ([(7 : ℝ), 8, 9, 10].length = 4) ∧
    (LogLike.mk OBS (some 8) (some 2)).call [1, 2, 3, 4, 5, 6] =
      (LogLike.mk OBS (some 8) (some 2)).negative_log_likelihood 1 2 3 4 5 6 ∧
    (LogLike.mk OBS (some 8) (some 2)).restricted_np [7, 8, 9, 10] =
      (LogLike.mk OBS (some 8) (some 2)).restricted 7 8 9 10 := by
  have h := C9_wrappers_coincide (LogLike.mk OBS (some 8) (some 2))
    [1, 2, 3, 4, 5, 6] [7, 8, 9, 10] rfl rfl
  exact ⟨rfl, rfl, h.1, h.2⟩

/-- C10: `generate_pseudoexperiment` passes each computed bin mean directly
to the Poisson sampler with no clamping or retry: whenever the drawn
nuisance parameters make some bin mean negative and the sampler rejects
negative means (as numpy's `poisson` does), generation fails with an error
and returns no spectrum. -/
theorem C10_negative_mean_fails {σ τ : Type} (gauss : ℝ → ℝ → σ → ℝ × σ)
    (pois : ℝ → τ → Except PyError (ℕ × τ)) (m Delta : ℝ) (s : σ) (t : τ)
    (cA cB cC cD : ℝ) (s1 s2 s3 s4 : σ)
    (hg1 : gauss A dA s = (cA, s1)) (hg2 : gauss B dB s1 = (cB, s2))
    (hg3 : gauss C dC s2 = (cC, s3)) (hg4 : gauss D dD s3 = (cD, s4))
    (hB : cB ≠ 0) (hD : Delta ≠ 0)
    (hneg : ∃ k, 1 ≤ k ∧ k ≤ N_b ∧ poisson_mean_value cA cB cC cD m Delta k < 0)
    (hpois : ∀ lam t2, lam < 0 → ∃ e, pois lam t2 = Except.error e) :
    ∃ e, generate_pseudoexperiment gauss pois m Delta s t = Except.error e := by
  obtain ⟨k, hk1, hk2, hkneg⟩ := hneg
  have hmem : poisson_mean_value cA cB cC cD m Delta k ∈
      (List.range' 1 N_b).map (poisson_mean_value cA cB cC cD m Delta) :=
    List.mem_map_of_mem _ (List.mem_range'_1.mpr ⟨hk1, by omega⟩)
  have hx : ∀ t2, ∃ e, pois (poisson_mean_value cA cB cC cD m Delta k) t2 =
      Except.error e := fun t2 => hpois _ t2 hkneg
  obtain ⟨e2, he2⟩ := mapES_error_of_mem hx _ hmem t
  refine ⟨e2, ?_⟩
  simp only [generate_pseudoexperiment, hg1, hg2, hg3, hg4]
  rw [mapE_ok _ fun j _ => pm_ok cA cC cD m j hB hD]
  simp only [except_bind_ok]
  rw [he2]
  simp only [except_bind_err]

/-- A degenerate Gaussian stream for the C10 witness: every draw is -1. -/
def witGauss : ℝ → ℝ → Unit → ℝ × Unit := fun _ _ u => (-1, u)

/-- A Poisson sampler for the C10 witness that rejects every mean. -/
def witPois : ℝ → Unit → Except PyError (ℕ × Unit) :=
  fun _ _ => Except.error PyError.valueError

/-- Witness for C10: with all four prior draws equal to -1 and location
(0, 1), every bin mean is negative and generation fails. -/
theorem C10_witness :
    witGauss A dA () = (-1, ()) ∧ witGauss B dB () = (-1, ()) ∧
    witGauss C dC () = (-1, ()) ∧ witGauss D dD () = (-1, ()) ∧
    ((-1 : ℝ) ≠ 0) ∧ ((1 : ℝ) ≠ 0) ∧
    (∃ k, 1 ≤ k ∧ k ≤ N_b ∧ poisson_mean_value (-1) (-1) (-1) (-1) 0 1 k < 0) ∧
    (∀ lam t2, lam < 0 → ∃ e, witPois lam t2 = Except.error e) ∧
    ∃ e, generate_pseudoexperiment witGauss witPois 0 1 () () = Except.error e := by
  have hneg : ∃ k, 1 ≤ k ∧ k ≤ N_b ∧ poisson_mean_value (-1) (-1) (-1) (-1) 0 1 k < 0 := by
    refine ⟨1, le_refl 1, by norm_num [N_b], ?_⟩
    unfold poisson_mean_value
    have h1 := Real.exp_pos (-((1 : ℕ) : ℝ) / (-1))
    have h2 := Real.exp_pos (-(0.5 : ℝ) * ((((1 : ℕ) : ℝ) - 0) / 1) ^ 2)
    nlinarith [h1, h2]
  have hpois : ∀ lam t2, lam < 0 → ∃ e, witPois lam t2 = Except.error e :=
    fun _ _ _ => ⟨PyError.valueError, rfl⟩
  have hB : (-1 : ℝ) ≠ 0 := by norm_num
  exact ⟨rfl, rfl, rfl, rfl, hB, one_ne_zero, hneg, hpois,
    C10_negative_mean_fails witGauss witPois 0 1 () () (-1) (-1) (-1) (-1) () () () ()
      rfl rfl rfl rfl hB one_ne_zero hneg hpois⟩
